import Mathlib

/-!
Verification development for the streamlite-log-viewer parsing and analysis
core (src/log_parser.py and src/data_analyzer.py).

Lines of text are modelled as `List Char`.  The Python regular expressions of
the parser are embedded as explicit matcher functions with the same
alternative order and backtracking behaviour as the compiled patterns; CPython
strptime directives are embedded with the exact digit-alternation regexes used
by Lib/_strptime.py.  Timestamps produced by the parser are calendar tuples
(`DT`); the analyzer, which operates on arbitrary dataframes, uses records
whose timestamps are seconds counts (`ARecord`).
-/

/-! ### Character helpers -/

/-- Lower-case an ASCII code point (used for IGNORECASE matching). -/
def lowerN (n : Nat) : Nat := if 65 ≤ n ∧ n ≤ 90 then n + 32 else n

/-- Case-insensitive character comparison (ASCII, as in `re.IGNORECASE`
on the pattern vocabulary used by the parser). -/
def ciEq (a b : Char) : Bool := lowerN a.toNat == lowerN b.toNat

def isDigitC (c : Char) : Bool := decide (48 ≤ c.toNat ∧ c.toNat ≤ 57)

/-- Digit value of an ASCII digit. -/
def dval (c : Char) : Nat := c.toNat - 48

def isAlphaC (c : Char) : Bool :=
  decide ((65 ≤ c.toNat ∧ c.toNat ≤ 90) ∨ (97 ≤ c.toNat ∧ c.toNat ≤ 122))

/-- ASCII whitespace, the characters Python's `str.strip()` and `\s` treat as
space (space, tab, newline, carriage return, vertical tab, form feed). -/
def isSpaceC (c : Char) : Bool :=
  decide (c.toNat = 32 ∨ c.toNat = 9 ∨ c.toNat = 10 ∨ c.toNat = 13 ∨
          c.toNat = 11 ∨ c.toNat = 12)

/-- Python regex word character `\w` restricted to ASCII: `[a-zA-Z0-9_]`. -/
def isWordC (c : Char) : Bool := isAlphaC c || isDigitC c || c == '_'

/-- Python `str.strip()`: remove leading and trailing whitespace. -/
def stripChars (l : List Char) : List Char :=
  ((l.dropWhile isSpaceC).reverse.dropWhile isSpaceC).reverse

/-- Python `str.rstrip('Z')`: remove trailing `Z` characters. -/
def rstripZ (l : List Char) : List Char :=
  (l.reverse.dropWhile (· == 'Z')).reverse

/-- Case-insensitive "starts with" on character lists. -/
def ciStartsWith : List Char → List Char → Bool
  | [], _ => true
  | _ :: _, [] => false
  | a :: as, b :: bs => ciEq a b && ciStartsWith as bs

/-- Case-sensitive "starts with" on character lists. -/
def csStartsWith : List Char → List Char → Bool
  | [], _ => true
  | _ :: _, [] => false
  | a :: as, b :: bs => (a == b) && csStartsWith as bs

/-! ### Calendar timestamps and CPython strptime

`datetime.strptime` is modelled directive by directive.  Each directive uses
the alternation regex CPython's Lib/_strptime.py compiles for it, in the same
alternative order, and a failing continuation backtracks into the next
alternative exactly as the regex engine does. -/

structure DT where
  year : Nat
  month : Nat
  day : Nat
  hour : Nat
  minute : Nat
  second : Nat
deriving DecidableEq, Repr

def isLeap (y : Nat) : Bool := (y % 4 == 0 && y % 100 != 0) || y % 400 == 0

def daysInMonth (y m : Nat) : Nat :=
  if m = 2 then (if isLeap y then 29 else 28)
  else if m = 4 ∨ m = 6 ∨ m = 9 ∨ m = 11 then 30
  else 31

/-- The `datetime` constructor's validity checks on the fields produced by
strptime (a value outside range raises, which the parser treats as a failed
parse).  Ranges not already guaranteed by the directive regexes are checked. -/
def mkDT (y mo d h mi s : Nat) : Option DT :=
  if 1 ≤ y ∧ 1 ≤ mo ∧ mo ≤ 12 ∧ 1 ≤ d ∧ d ≤ daysInMonth y mo ∧
     h ≤ 23 ∧ mi ≤ 59 ∧ s ≤ 59 then
    some ⟨y, mo, d, h, mi, s⟩
  else none

/-- Directive `%S`, regex alternation `6[0-1]|[0-5]\d|\d`. -/
def dirS (cs : List Char) (k : Nat → List Char → Option DT) : Option DT :=
  (match cs with
   | c1 :: c2 :: rest =>
     if c1 == '6' && (c2 == '0' || c2 == '1') then k (60 + dval c2) rest else none
   | _ => none) <|>
  (match cs with
   | c1 :: c2 :: rest =>
     if isDigitC c1 && decide (dval c1 ≤ 5) && isDigitC c2 then
       k (10 * dval c1 + dval c2) rest
     else none
   | _ => none) <|>
  (match cs with
   | c :: rest => if isDigitC c then k (dval c) rest else none
   | _ => none)

/-- Directive `%M`, regex alternation `[0-5]\d|\d`. -/
def dirM (cs : List Char) (k : Nat → List Char → Option DT) : Option DT :=
  (match cs with
   | c1 :: c2 :: rest =>
     if isDigitC c1 && decide (dval c1 ≤ 5) && isDigitC c2 then
       k (10 * dval c1 + dval c2) rest
     else none
   | _ => none) <|>
  (match cs with
   | c :: rest => if isDigitC c then k (dval c) rest else none
   | _ => none)

/-- Directive `%H`, regex alternation `2[0-3]|[0-1]\d|\d`. -/
def dirH (cs : List Char) (k : Nat → List Char → Option DT) : Option DT :=
  (match cs with
   | c1 :: c2 :: rest =>
     if c1 == '2' && isDigitC c2 && decide (dval c2 ≤ 3) then
       k (20 + dval c2) rest
     else none
   | _ => none) <|>
  (match cs with
   | c1 :: c2 :: rest =>
     if (c1 == '0' || c1 == '1') && isDigitC c2 then
       k (10 * dval c1 + dval c2) rest
     else none
   | _ => none) <|>
  (match cs with
   | c :: rest => if isDigitC c then k (dval c) rest else none
   | _ => none)

/-- Directive `%d`, regex alternation `3[01]|[12]\d|0[1-9]|[1-9]`. -/
def dird (cs : List Char) (k : Nat → List Char → Option DT) : Option DT :=
  (match cs with
   | c1 :: c2 :: rest =>
     if c1 == '3' && (c2 == '0' || c2 == '1') then k (30 + dval c2) rest else none
   | _ => none) <|>
  (match cs with
   | c1 :: c2 :: rest =>
     if (c1 == '1' || c1 == '2') && isDigitC c2 then
       k (10 * dval c1 + dval c2) rest
     else none
   | _ => none) <|>
  (match cs with
   | c1 :: c2 :: rest =>
     if c1 == '0' && isDigitC c2 && decide (1 ≤ dval c2) then k (dval c2) rest
     else none
   | _ => none) <|>
  (match cs with
   | c :: rest => if isDigitC c && decide (1 ≤ dval c) then k (dval c) rest else none
   | _ => none)

/-- Directive `%m`, regex alternation `1[0-2]|0[1-9]|[1-9]`. -/
def dirm (cs : List Char) (k : Nat → List Char → Option DT) : Option DT :=
  (match cs with
   | c1 :: c2 :: rest =>
     if c1 == '1' && isDigitC c2 && decide (dval c2 ≤ 2) then
       k (10 + dval c2) rest
     else none
   | _ => none) <|>
  (match cs with
   | c1 :: c2 :: rest =>
     if c1 == '0' && isDigitC c2 && decide (1 ≤ dval c2) then k (dval c2) rest
     else none
   | _ => none) <|>
  (match cs with
   | c :: rest => if isDigitC c && decide (1 ≤ dval c) then k (dval c) rest else none
   | _ => none)

/-- Directive `%Y`, regex `\d\d\d\d`. -/
def dirY (cs : List Char) (k : Nat → List Char → Option DT) : Option DT :=
  match cs with
  | c1 :: c2 :: c3 :: c4 :: rest =>
    if isDigitC c1 && isDigitC c2 && isDigitC c3 && isDigitC c4 then
      k (1000 * dval c1 + 100 * dval c2 + 10 * dval c3 + dval c4) rest
    else none
  | _ => none

def monthAbbrs : List (List Char × Nat) :=
  [("jan".toList, 1), ("feb".toList, 2), ("mar".toList, 3), ("apr".toList, 4),
   ("may".toList, 5), ("jun".toList, 6), ("jul".toList, 7), ("aug".toList, 8),
   ("sep".toList, 9), ("oct".toList, 10), ("nov".toList, 11), ("dec".toList, 12)]

def dirBGo (cs : List Char) (k : Nat → List Char → Option DT) :
    List (List Char × Nat) → Option DT
  | [] => none
  | (ab, m) :: rest =>
    (if ciStartsWith ab cs then k m (cs.drop ab.length) else none) <|>
    dirBGo cs k rest

/-- Directive `%b`: case-insensitive abbreviated month name. -/
def dirB (cs : List Char) (k : Nat → List Char → Option DT) : Option DT :=
  dirBGo cs k monthAbbrs

/-- A literal character of the format string. -/
def litP (c : Char) (cs : List Char) (k : List Char → Option DT) : Option DT :=
  match cs with
  | c' :: rest => if c' == c then k rest else none
  | [] => none

/-- A whitespace character of the format string matches `\s+` in strptime. -/
def spacesP (cs : List Char) (k : List Char → Option DT) : Option DT :=
  match cs with
  | c :: rest => if isSpaceC c then k (rest.dropWhile isSpaceC) else none
  | [] => none

/-- strptime with format `%Y-%m-%d %H:%M:%S`; a non-empty remainder after the
match is the "unconverted data remains" error, so the whole input must be
consumed. -/
def strpYmdHMS (cs : List Char) : Option DT :=
  dirY cs fun y cs => litP '-' cs fun cs => dirm cs fun mo cs =>
  litP '-' cs fun cs => dird cs fun d cs => spacesP cs fun cs =>
  dirH cs fun h cs => litP ':' cs fun cs => dirM cs fun mi cs =>
  litP ':' cs fun cs => dirS cs fun s cs =>
  if cs.isEmpty then mkDT y mo d h mi s else none

/-- strptime with format `%Y %b %d %H:%M:%S` (syslog lines, year prefixed). -/
def strpYbdHMS (cs : List Char) : Option DT :=
  dirY cs fun y cs => spacesP cs fun cs => dirB cs fun mo cs =>
  spacesP cs fun cs => dird cs fun d cs => spacesP cs fun cs =>
  dirH cs fun h cs => litP ':' cs fun cs => dirM cs fun mi cs =>
  litP ':' cs fun cs => dirS cs fun s cs =>
  if cs.isEmpty then mkDT y mo d h mi s else none

/-- strptime with format `%d/%b/%Y:%H:%M:%S` (Apache/Nginx lines). -/
def strpdbYHMS (cs : List Char) : Option DT :=
  dird cs fun d cs => litP '/' cs fun cs => dirB cs fun mo cs =>
  litP '/' cs fun cs => dirY cs fun y cs => litP ':' cs fun cs =>
  dirH cs fun h cs => litP ':' cs fun cs => dirM cs fun mi cs =>
  litP ':' cs fun cs => dirS cs fun s cs =>
  if cs.isEmpty then mkDT y mo d h mi s else none

/-- strptime with format `%m/%d/%Y %H:%M:%S`. -/
def strpmdYHMS (cs : List Char) : Option DT :=
  dirm cs fun mo cs => litP '/' cs fun cs => dird cs fun d cs =>
  litP '/' cs fun cs => dirY cs fun y cs => spacesP cs fun cs =>
  dirH cs fun h cs => litP ':' cs fun cs => dirM cs fun mi cs =>
  litP ':' cs fun cs => dirS cs fun s cs =>
  if cs.isEmpty then mkDT y mo d h mi s else none

/-- strptime with format `%Y-%m-%d %H:%M:%S.` — the source truncates the
millisecond format string to 19 characters, leaving a trailing literal dot
that the (also truncated) input can never supply. -/
def strpYmdHMSdot (cs : List Char) : Option DT :=
  dirY cs fun y cs => litP '-' cs fun cs => dirm cs fun mo cs =>
  litP '-' cs fun cs => dird cs fun d cs => spacesP cs fun cs =>
  dirH cs fun h cs => litP ':' cs fun cs => dirM cs fun mi cs =>
  litP ':' cs fun cs => dirS cs fun s cs => litP '.' cs fun cs =>
  if cs.isEmpty then mkDT y mo d h mi s else none

/-! ### Timestamp pattern matchers (LogParser.timestamp_patterns)

Each matcher implements one compiled pattern of the source's
`timestamp_patterns` list.  A matcher-at-position function consumes the match
and returns the remaining suffix; `searchGo` provides `re.search`'s
leftmost-match semantics by trying every start position in order. -/

/-- Consume exactly `n` ASCII digits. -/
def mDigits : Nat → List Char → Option (List Char)
  | 0, cs => some cs
  | n + 1, c :: rest => if isDigitC c then mDigits n rest else none
  | _ + 1, [] => none

/-- Consume exactly `n` ASCII letters (`[A-Za-z]`). -/
def mAlphas : Nat → List Char → Option (List Char)
  | 0, cs => some cs
  | n + 1, c :: rest => if isAlphaC c then mAlphas n rest else none
  | _ + 1, [] => none

/-- Consume one literal character. -/
def mLit (c : Char) : List Char → Option (List Char)
  | c' :: rest => if c' == c then some rest else none
  | [] => none

/-- Consume one character of a class. -/
def mClass1 (f : Char → Bool) : List Char → Option (List Char)
  | c :: rest => if f c then some rest else none
  | [] => none

/-- `re.search` driver: try the matcher at positions 0, 1, … of the line and
return the start index and end index of the first (leftmost) match. -/
def searchGo (mAt : List Char → Option (List Char)) : List Char → Nat → Option (Nat × Nat)
  | [], _ => none
  | c :: rest, i =>
    match mAt (c :: rest) with
    | some rem => some (i, i + ((c :: rest).length - rem.length))
    | none => searchGo mAt rest (i + 1)

/-- Pattern 1 at a position:
`\d{4}-\d{2}-\d{2}[T ]\d{2}:\d{2}:\d{2}(?:\.\d{3})?(?:Z|[+-]\d{2}:?\d{2})?`. -/
def p1At (cs : List Char) : Option (List Char) := do
  let cs ← mDigits 4 cs
  let cs ← mLit '-' cs
  let cs ← mDigits 2 cs
  let cs ← mLit '-' cs
  let cs ← mDigits 2 cs
  let cs ← mClass1 (fun c => c == 'T' || c == ' ') cs
  let cs ← mDigits 2 cs
  let cs ← mLit ':' cs
  let cs ← mDigits 2 cs
  let cs ← mLit ':' cs
  let cs ← mDigits 2 cs
  -- greedy optional fractional seconds, then greedy optional zone suffix;
  -- nothing follows in the pattern, so no backtracking is possible
  let cs := ((mLit '.' cs).bind (mDigits 3)).getD cs
  let cs := ((mLit 'Z' cs) <|>
             ((mClass1 (fun c => c == '+' || c == '-') cs).bind fun cs =>
              (mDigits 2 cs).bind fun cs =>
              ((mLit ':' cs).bind (mDigits 2)) <|> mDigits 2 cs)).getD cs
  pure cs

/-- Pattern 2 at a position: `[A-Za-z]{3} \d{1,2} \d{2}:\d{2}:\d{2}`
(`\d{1,2}` backtracks from two digits to one). -/
def p2At (cs : List Char) : Option (List Char) :=
  (mAlphas 3 cs).bind fun cs => (mLit ' ' cs).bind fun cs =>
    (((mDigits 2 cs).bind (mLit ' ')) <|> ((mDigits 1 cs).bind (mLit ' '))).bind fun cs =>
      (mDigits 2 cs).bind fun cs => (mLit ':' cs).bind fun cs =>
        (mDigits 2 cs).bind fun cs => (mLit ':' cs).bind (mDigits 2)

/-- Pattern 3 at a position:
`\[(\d{2}/[A-Za-z]{3}/\d{4}:\d{2}:\d{2}:\d{2}(?: [+-]\d{4})?)\]`
(the optional zone backtracks if the closing bracket does not follow it). -/
def p3At (cs : List Char) : Option (List Char) := do
  let cs ← mLit '[' cs
  let cs ← mDigits 2 cs
  let cs ← mLit '/' cs
  let cs ← mAlphas 3 cs
  let cs ← mLit '/' cs
  let cs ← mDigits 4 cs
  let cs ← mLit ':' cs
  let cs ← mDigits 2 cs
  let cs ← mLit ':' cs
  let cs ← mDigits 2 cs
  let cs ← mLit ':' cs
  let cs ← mDigits 2 cs
  ((mLit ' ' cs).bind fun cs =>
     (mClass1 (fun c => c == '+' || c == '-') cs).bind fun cs =>
       (mDigits 4 cs).bind (mLit ']')) <|> mLit ']' cs

/-- Pattern 4 at a position: `\d{4}-\d{2}-\d{2} \d{2}:\d{2}:\d{2}`. -/
def p4At (cs : List Char) : Option (List Char) := do
  let cs ← mDigits 4 cs
  let cs ← mLit '-' cs
  let cs ← mDigits 2 cs
  let cs ← mLit '-' cs
  let cs ← mDigits 2 cs
  let cs ← mLit ' ' cs
  let cs ← mDigits 2 cs
  let cs ← mLit ':' cs
  let cs ← mDigits 2 cs
  let cs ← mLit ':' cs
  mDigits 2 cs

/-- Pattern 5 at a position: `\d{1,2}/\d{1,2}/\d{4} \d{2}:\d{2}:\d{2}`. -/
def p5At (cs : List Char) : Option (List Char) :=
  (((mDigits 2 cs).bind (mLit '/')) <|> ((mDigits 1 cs).bind (mLit '/'))).bind fun cs =>
    (((mDigits 2 cs).bind (mLit '/')) <|> ((mDigits 1 cs).bind (mLit '/'))).bind fun cs =>
      (mDigits 4 cs).bind fun cs => (mLit ' ' cs).bind fun cs =>
        (mDigits 2 cs).bind fun cs => (mLit ':' cs).bind fun cs =>
          (mDigits 2 cs).bind fun cs => (mLit ':' cs).bind (mDigits 2)

/-- Pattern 6 at a position: `\d{4}-\d{2}-\d{2} \d{2}:\d{2}:\d{2}\.\d{3}`. -/
def p6At (cs : List Char) : Option (List Char) :=
  (p4At cs).bind fun cs => (mLit '.' cs).bind (mDigits 3)

/-- Search result of one timestamp pattern: the text of capture group 1 and
the end index of the whole match (`match.group(1)`, `match.end()`). -/
def searchWhole (mAt : List Char → Option (List Char)) (line : List Char) :
    Option (List Char × Nat) :=
  (searchGo mAt line 0).map fun p => (((line.drop p.1).take (p.2 - p.1)), p.2)

/-- For pattern 3 the capture group excludes the surrounding brackets. -/
def searchBracket (mAt : List Char → Option (List Char)) (line : List Char) :
    Option (List Char × Nat) :=
  (searchGo mAt line 0).map fun p => (((line.drop (p.1 + 1)).take (p.2 - p.1 - 2)), p.2)

/-- The format tag paired with each pattern in `timestamp_patterns`. -/
inductive Fmt
  | iso
  | syslog
  | apache
  | plain
  | mdY
  | isoMs
deriving DecidableEq, Repr

/-- Normalisation step of `detect_timestamp`: when the matched text contains a
`T`, every `T` is replaced by a space and trailing `Z`s are stripped. -/
def normalizeTs (g : List Char) : List Char :=
  if g.contains 'T' then rstripZ (g.map fun c => if c == 'T' then ' ' else c) else g

/-- `datetime.strptime(timestamp_str[:19], date_format[:19])`, including the
year prefixing for the syslog format (`y` models `datetime.now().year`). -/
def applyFmt (y : Nat) : Fmt → List Char → Option DT
  | .iso, g => strpYmdHMS (g.take 19)
  | .plain, g => strpYmdHMS (g.take 19)
  | .syslog, g => strpYbdHMS ((Nat.toDigits 10 y ++ ' ' :: g).take 19)
  | .apache, g => strpdbYHMS (g.take 19)
  | .mdY, g => strpmdYHMS (g.take 19)
  | .isoMs, g => strpYmdHMSdot (g.take 19)

/-- `timestamp_patterns` in declaration order, each as its search function
paired with its format tag. -/
def tsMatchers : List ((List Char → Option (List Char × Nat)) × Fmt) :=
  [(searchWhole p1At, .iso), (searchWhole p2At, .syslog),
   (searchBracket p3At, .apache), (searchWhole p4At, .plain),
   (searchWhole p5At, .mdY), (searchWhole p6At, .isoMs)]

/-- The matcher loop of `LogParser.detect_timestamp`: patterns are tried in
order; a regex match whose strptime parse fails is skipped (the ValueError
branch) and the next pattern is tried. -/
def detectAux (y : Nat) :
    List ((List Char → Option (List Char × Nat)) × Fmt) → List Char →
    Option DT × List Char
  | [], line => (none, line)
  | (srch, fmt) :: rest, line =>
    match srch line with
    | some (g, e) =>
      match applyFmt y fmt (normalizeTs g) with
      | some dt => (some dt, stripChars (line.drop e))
      | none => detectAux y rest line
    | none => detectAux y rest line

/-- `LogParser.detect_timestamp` (`y` models `datetime.now().year`, consulted
by the syslog matcher). -/
def detect_timestamp (y : Nat) (line : List Char) : Option DT × List Char :=
  detectAux y tsMatchers line

/-! ### Severity extraction (LogParser.extract_log_level) -/

/-- The severity alternation of `log_level_pattern`, in declaration order. -/
def levelAlts : List (List Char) :=
  ["TRACE".toList, "DEBUG".toList, "INFO".toList, "INFORMATION".toList,
   "WARN".toList, "WARNING".toList, "ERROR".toList, "FATAL".toList,
   "CRITICAL".toList, "SEVERE".toList]

/-- `\b` holds after position `j` when `j` is the end of the line or the
character there is not a word character (the matched token always ends in a
word character). -/
def boundaryAfter (line : List Char) (j : Nat) : Bool :=
  decide (line.length ≤ j) || !(isWordC (line.getD j ' '))

/-- Match `\b(TRACE|DEBUG|…)\b` at position `i`: the leading boundary must
hold, then the alternatives are tried in order, each requiring the trailing
boundary (the regex backtracks to the next alternative when `\b` fails, which
is how `INFO` yields to `INFORMATION`). -/
def levelAtPos (line : List Char) (i : Nat) : Option (List Char) :=
  if i = 0 || !(isWordC (line.getD (i - 1) ' ')) then
    levelAlts.find? fun w =>
      ciStartsWith w (line.drop i) && boundaryAfter line (i + w.length)
  else none

def levelSearchGo (line : List Char) : List Char → Nat → Option (Nat × List Char)
  | [], _ => none
  | _ :: rest, i =>
    match levelAtPos line i with
    | some w => some (i, w)
    | none => levelSearchGo line rest (i + 1)

/-- `LogParser.extract_log_level`: leftmost severity token, upper-cased (the
alternatives are already the canonical upper-case forms and matching is
case-insensitive, so the normalised group equals the alternative itself); the
matched span is excised and the remainder stripped. -/
def extract_log_level (line : List Char) : Option String × List Char :=
  match levelSearchGo line line 0 with
  | some (i, w) =>
    (some (String.mk w), stripChars (line.take i ++ line.drop (i + w.length)))
  | none => (none, line)

/-! ### Error classification (LogParser.classify_error) -/

/-- Consume one case-insensitive literal word. -/
def mWordCI (w : List Char) (cs : List Char) : Option (List Char) :=
  if ciStartsWith w cs then some (cs.drop w.length) else none

/-- Consume one case-sensitive literal word. -/
def mWordCS (w : List Char) (cs : List Char) : Option (List Char) :=
  if csStartsWith w cs then some (cs.drop w.length) else none

/-- Consume `\s+` (greedy; every following token in the patterns starts with a
non-space character, so greediness needs no backtracking). -/
def mSpaces1 (cs : List Char) : Option (List Char) :=
  match cs with
  | c :: rest => if isSpaceC c then some (rest.dropWhile isSpaceC) else none
  | [] => none

/-- Match a sequence of literal words joined by `\s+` at a position. -/
def seqWordsAt (ci : Bool) : List (List Char) → List Char → Option (List Char)
  | [], cs => some cs
  | [w], cs => if ci then mWordCI w cs else mWordCS w cs
  | w :: w' :: ws, cs =>
    ((if ci then mWordCI w cs else mWordCS w cs).bind mSpaces1).bind
      (seqWordsAt ci (w' :: ws))

/-- `re.search` as a Boolean: does the matcher succeed at some position? -/
def containsFrom (mAt : List Char → Option (List Char)) (cs : List Char) : Bool :=
  (searchGo mAt cs 0).isSome

/-- Search for a `\s+`-joined word sequence, case-insensitively. -/
def containsSeq (ws : List (List Char)) (line : List Char) : Bool :=
  containsFrom (seqWordsAt true ws) line

/-- Search for `A.*B`: `A` matches at some position and `B` matches at or
after the end of `A` (lines contain no newline, so `.` is any character). -/
def containsThenGo (ma mb : List Char → Option (List Char)) : List Char → Bool
  | [] => false
  | c :: rest =>
    (match ma (c :: rest) with
     | some r => containsFrom mb r
     | none => false) || containsThenGo ma mb rest

def containsThen (ma mb : List Char → Option (List Char)) (line : List Char) : Bool :=
  containsThenGo ma mb line

/-- Match `50\d`. -/
def m50d (cs : List Char) : Option (List Char) :=
  (mWordCI "50".toList cs).bind (mClass1 isDigitC)

/-- A one-word pattern such as `deadlock`. -/
def pSeq1 (a : String) : List Char → Bool := fun l => containsSeq [a.toList] l

/-- A two-word pattern such as `payment\s+gateway`. -/
def pSeq2 (a b : String) : List Char → Bool :=
  fun l => containsSeq [a.toList, b.toList] l

/-- A three-word pattern such as `internal\s+server\s+error`. -/
def pSeq3 (a b c : String) : List Char → Bool :=
  fun l => containsSeq [a.toList, b.toList, c.toList] l

/-- A pattern of the form `A.*B` such as `timeout.*database`. -/
def pThen (a b : String) : List Char → Bool :=
  fun l => containsThen (mWordCI a.toList) (mWordCI b.toList) l

/-- A pattern of the form `A.*50\d` (`http.*50\d`, `status.*50\d`). -/
def pThen50 (a : String) : List Char → Bool :=
  fun l => containsThen (mWordCI a.toList) m50d l

/-- `LogParser.error_patterns`: the six category pattern sets, in dictionary
insertion order, each pattern in declaration order. -/
def error_patterns : List (String × List (List Char → Bool)) :=
  [("credit_card_errors",
    [pSeq2 "payment" "gateway", pSeq2 "credit" "card", pSeq2 "card" "declined",
     pSeq2 "payment" "failed", pSeq2 "transaction" "timeout",
     pSeq2 "authorization" "failed", pSeq2 "invalid" "card",
     pSeq2 "payment" "processor", pSeq2 "merchant" "account"]),
   ("database_errors",
    [pSeq2 "connection" "refused", pSeq2 "cannot" "connect",
     pSeq2 "database" "error", pSeq2 "sql" "error", pThen "timeout" "database",
     pSeq1 "deadlock", pSeq2 "connection" "lost", pThen "mysql" "error",
     pThen "postgresql" "error", pThen "oracle" "error"]),
   ("server_errors",
    [pThen50 "http", pThen50 "status", pSeq3 "internal" "server" "error",
     pSeq2 "service" "unavailable", pSeq2 "gateway" "timeout",
     pSeq2 "bad" "gateway", pSeq2 "server" "error"]),
   ("timeout_errors",
    [pSeq1 "timeout", pSeq2 "timed" "out", pSeq2 "connection" "timeout",
     pSeq2 "read" "timeout", pSeq2 "request" "timeout"]),
   ("authentication_errors",
    [pSeq2 "authentication" "failed", pSeq1 "unauthorized",
     pSeq2 "access" "denied", pSeq1 "forbidden", pSeq2 "invalid" "credentials",
     pSeq2 "login" "failed"]),
   ("exception_errors",
    [pSeq1 "exception", pSeq2 "stack" "trace", pSeq2 "null" "pointer",
     pSeq3 "out" "of" "memory", pSeq2 "segmentation" "fault"])]

/-- `LogParser.classify_error`: a category label is recorded once when any of
its patterns matches the line (the inner `break`). -/
def classify_error (line : List Char) : List String :=
  error_patterns.filterMap fun p => if p.2.any (fun pt => pt line) then some p.1 else none

/-! ### Warning phrases (LogParser.warning_patterns) -/

/-- Match a `\s+`-joined word sequence between `\b` boundaries at position
scan: `prevWord` tracks whether the previous character is a word character;
the trailing boundary holds when the remainder starts with a non-word
character or is empty. -/
def containsSeqBGo (ci : Bool) (ws : List (List Char)) : List Char → Bool → Bool
  | [], _ => false
  | c :: rest, prevWord =>
    (!prevWord &&
      (match seqWordsAt ci ws (c :: rest) with
       | some r => !(isWordC (r.headD ' '))
       | none => false)) ||
    containsSeqBGo ci ws rest (isWordC c)

/-- Search for a `\b`-delimited word sequence anywhere in the line. -/
def containsSeqB (ci : Bool) (ws : List (List Char)) (line : List Char) : Bool :=
  containsSeqBGo ci ws line false

/-- `LogParser.warning_patterns` (note: the `E_WARNING` and `E_NOTICE`
patterns are compiled without IGNORECASE). -/
def warning_patterns : List (List Char → Bool) :=
  [fun l => containsSeqB true ["php".toList, "warning".toList] l,
   fun l => containsSeqB true ["php".toList, "notice".toList] l,
   fun l => containsSeqB true ["deprecated".toList] l,
   fun l => containsSeqB false ["E_WARNING".toList] l,
   fun l => containsSeqB false ["E_NOTICE".toList] l]

/-! ### Transaction IDs (LogParser.extract_transaction_id) -/

/-- Consume `[class]+` greedily (the classes used are disjoint from every
following token, so greediness needs no backtracking). -/
def mClassPlus (f : Char → Bool) (cs : List Char) : Option (List Char) :=
  match cs with
  | c :: rest => if f c then some (rest.dropWhile f) else none
  | [] => none

def isUSp (c : Char) : Bool := c == '_' || isSpaceC c

def isColSp (c : Char) : Bool := c == ':' || isSpaceC c

/-- Value characters `[a-zA-Z0-9\-_]`. -/
def isValC (c : Char) : Bool := isAlphaC c || isDigitC c || c == '-' || c == '_'

/-- Match `KEY[_\s]+id[:\s]+([a-zA-Z0-9\-_]+)` at a position, returning the
greedily captured value. -/
def txnAt (key : List Char) (cs : List Char) : Option (List Char) :=
  (mWordCI key cs).bind fun cs =>
    (mClassPlus isUSp cs).bind fun cs =>
      (mWordCI "id".toList cs).bind fun cs =>
        (mClassPlus isColSp cs).bind fun cs =>
          match cs with
          | c :: _ => if isValC c then some (cs.takeWhile isValC) else none
          | [] => none

/-- Leftmost application of an option-valued matcher. -/
def scanOpt (m : List Char → Option (List Char)) : List Char → Option (List Char)
  | [] => none
  | c :: rest => (m (c :: rest)) <|> scanOpt m rest

def txnKeys : List String := ["transaction", "txn", "order", "ref"]

def txnGo (line : List Char) : List String → Option String
  | [] => none
  | k :: rest =>
    match scanOpt (txnAt k.toList) line with
    | some v => some (String.mk v)
    | none => txnGo line rest

/-- `LogParser.extract_transaction_id`: the four key/value patterns are tried
in order; the first pattern that matches anywhere wins. -/
def extract_transaction_id (line : List Char) : Option String :=
  txnGo line txnKeys

/-! ### Line parsing (LogParser.parse_line) -/

structure LogRec where
  timestamp : Option DT
  log_level : Option String
  message : String
  original_line : String
  error_categories : List String
  transaction_id : Option String
  file_path : String
  line_number : Nat
  is_warning : Bool
  is_error_strict : Bool
  has_error : Bool
deriving DecidableEq, Repr

/-- `log_level in ['WARN', 'WARNING'] if log_level else False` (an extracted
level is never the empty string, so truthiness is "is not None"). -/
def levelIsWarn : Option String → Bool
  | some l => l == "WARN" || l == "WARNING"
  | none => false

/-- `log_level in ['ERROR', 'FATAL', 'CRITICAL']`. -/
def levelIsErr (l : String) : Bool :=
  l == "ERROR" || l == "FATAL" || l == "CRITICAL"

/-- `LogParser.parse_line`.  `warnAsErr` is the `treat_warnings_as_errors`
configuration flag and `y` models `datetime.now().year`. -/
def parse_line (warnAsErr : Bool) (y : Nat) (line : List Char)
    (fp : String) (ln : Nat) : Option LogRec :=
  let original := stripChars line
  if original.isEmpty then none
  else
    let tsr := detect_timestamp y original
    let lvr := extract_log_level tsr.2
    let cats := classify_error original
    let isWarning := levelIsWarn lvr.1 || warning_patterns.any (fun p => p original)
    -- `bool(len(cats) > 0 or (level in severe) if log_level else len(cats) > 0)`:
    -- the conditional expression has lowest precedence, so with a level present
    -- the flag is `cats ≠ [] or severe`, otherwise `cats ≠ []`
    let isStrict := match lvr.1 with
      | some l => !cats.isEmpty || levelIsErr l
      | none => !cats.isEmpty
    let hasErr := isStrict || (isWarning && warnAsErr)
    some { timestamp := tsr.1, log_level := lvr.1, message := String.mk lvr.2,
           original_line := String.mk original, error_categories := cats,
           transaction_id := extract_transaction_id original, file_path := fp,
           line_number := ln, is_warning := isWarning, is_error_strict := isStrict,
           has_error := hasErr }

/-! ### File parsing (LogParser.parse_file, parse_files_parallel)

The file system is modelled as a partial map from paths to line lists; `none`
is an I/O failure when opening or reading the file, which the source catches,
logs, and converts to the empty record list.  Byte-decoding problems are
absorbed by the source's `errors='ignore'` and need no model. -/

def FileSystem := String → Option (List String)

/-- `if max_lines and line_number > max_lines: break` — Python truthiness
makes both `None` and `0` skip the break. -/
def capStop (cap : Option Nat) (n : Nat) : Bool :=
  match cap with
  | some c => (!(c == 0)) && decide (c < n)
  | none => false

/-- The line loop of `parse_file`: lines are numbered from 1; the loop breaks
when the cap is exceeded, and lines for which `parse_line` yields no record
(blank lines) are skipped. -/
def parse_lines (warnAsErr : Bool) (y : Nat) (fp : String) :
    List String → Nat → Option Nat → List LogRec
  | [], _, _ => []
  | l :: ls, n, cap =>
    if capStop cap n then []
    else
      match parse_line warnAsErr y l.toList fp n with
      | some r => r :: parse_lines warnAsErr y fp ls (n + 1) cap
      | none => parse_lines warnAsErr y fp ls (n + 1) cap

/-- `LogParser.parse_file`: an I/O failure is caught and yields the records
accumulated so far (none, since the failure modelled is at open). -/
def parse_file (warnAsErr : Bool) (y : Nat) (fs : FileSystem) (p : String)
    (cap : Option Nat) : List LogRec :=
  match fs p with
  | some ls => parse_lines warnAsErr y p ls 1 cap
  | none => []

/-- `LogParser.parse_files_parallel`: every submitted file is parsed (with at
most `w` worker threads, which does not affect the result set) and the
per-file record lists are concatenated.  `as_completed` makes the cross-file
concatenation order nondeterministic; submission order is used here, and no
theorem below depends on the cross-file order. -/
def parse_files_parallel (warnAsErr : Bool) (y : Nat) (fs : FileSystem)
    (paths : List String) (_w : Nat) (cap : Option Nat) : List LogRec :=
  (paths.map fun p => parse_file warnAsErr y fs p cap).flatten

/-! ### The analyzer data model (DataAnalyzer)

The analyzer consumes dataframes whose rows may come from any source, so its
record type is independent of the parser's: timestamps are modelled as
seconds counts (`none` is a missing/unparseable timestamp, pandas NaT — rows
whose timestamp is NaT are dropped by `dropna` in the window filter and by
`groupby` on a floored NaT bin elsewhere). -/

structure ARecord where
  timestamp : Option Nat
  log_level : Option String
  has_error : Bool
  is_warning : Bool
  is_error_strict : Bool
  error_categories : List String
  file_path : String
  transaction_id : Option String
deriving DecidableEq, Repr

/-- The analyzer's configured window, `[target 09:00:00, target 14:00:00]`. -/
structure DataAnalyzer where
  start_time : Nat
  end_time : Nat
deriving DecidableEq, Repr

/-- Construction from a target date (midnight, in seconds):
`replace(hour=9, ...)` and `replace(hour=14, ...)`. -/
def DataAnalyzer.ofTarget (midnight : Nat) : DataAnalyzer :=
  ⟨midnight + 9 * 3600, midnight + 14 * 3600⟩

/-- The window mask `(ts >= start) & (ts <= end)`; a NaT timestamp has been
dropped by `dropna` before the mask is applied. -/
def inWindow (a : DataAnalyzer) (r : ARecord) : Bool :=
  match r.timestamp with
  | some t => decide (a.start_time ≤ t ∧ t ≤ a.end_time)
  | none => false

/-- `DataAnalyzer.filter_by_timeframe` (the early return on an empty frame
coincides with filtering the empty list). -/
def filter_by_timeframe (a : DataAnalyzer) (recs : List ARecord) : List ARecord :=
  recs.filter (inWindow a)

/-! ### Time bucketing and error bursts -/

/-- `Timestamp.floor`: bucket boundary for width `w` seconds. -/
def floorTo (w t : Nat) : Nat := t / w * w

/-- Error rows that carry a timestamp (`df[df.has_error] `, minus the NaT rows
that `groupby` on the floored bin silently drops). -/
def errorRecsTs (recs : List ARecord) : List ARecord :=
  recs.filter fun r => r.has_error && r.timestamp.isSome

/-- The floored bins of the error rows (with multiplicity). -/
def binsOf (w : Nat) (recs : List ARecord) : List Nat :=
  (errorRecsTs recs).filterMap fun r => r.timestamp.map (floorTo w)

/-- The distinct group keys in ascending order, as `groupby` produces them. -/
def sortedKeys (l : List Nat) : List Nat :=
  l.dedup.insertionSort (· ≤ ·)

/-- The size of the group of bin `b`. -/
def countInBin (w : Nat) (recs : List ARecord) (b : Nat) : Nat :=
  (errorRecsTs recs).countP fun r => r.timestamp.map (floorTo w) == some b

/-- Two-digit zero-padded rendering used by `strftime`. -/
def fmt2 (n : Nat) : String := if n < 10 then "0" ++ Nat.repr n else Nat.repr n

/-- `strftime('%H:%M:%S')` of a seconds count. -/
def fmtHMS (t : Nat) : String :=
  fmt2 (t / 3600 % 24) ++ ":" ++ fmt2 (t % 3600 / 60) ++ ":" ++ fmt2 (t % 60)

/-- `strftime('%H:%M')` of a seconds count. -/
def fmtHM (t : Nat) : String :=
  fmt2 (t / 3600 % 24) ++ ":" ++ fmt2 (t % 3600 / 60)

structure Burst where
  time : Nat
  error_count : Nat
  description : String
deriving DecidableEq, Repr

/-- The body of the burst loop: the reported entry of a 1-minute bin, if its
count exceeds the threshold. -/
def burstAt (recs : List ARecord) (m : Nat) : Option Burst :=
  let c := countInBin 60 recs m
  if 5 < c then
    some ⟨m, c, Nat.repr c ++ " errors in 1 minute starting at " ++ fmtHMS m⟩
  else none

/-- The burst loop of `DataAnalyzer.analyze_error_patterns`: 1-minute bins of
the error rows, reported when the bin count is strictly greater than 5. -/
def error_bursts (recs : List ARecord) : List Burst :=
  (sortedKeys (binsOf 60 recs)).filterMap (burstAt recs)

/-! ### Cascading failures -/

/-- Error rows with a non-null transaction id
(`error_df[error_df['transaction_id'].notna()]`). -/
def txnErrorRecs (recs : List ARecord) : List ARecord :=
  (recs.filter (·.has_error)).filter fun r => r.transaction_id.isSome

/-- `value_counts()` of one transaction id. -/
def txnCount (recs : List ARecord) (id : String) : Nat :=
  (txnErrorRecs recs).countP fun r => r.transaction_id == some id

/-- `value_counts().head(10)`: the distinct ids sorted by count descending,
first ten kept.  pandas does not specify the relative order of ids with equal
counts; a stable descending sort of the distinct-id list is used.  No theorem
below depends on which equal-count ids make the cut. -/
def topTransactions (recs : List ARecord) : List String :=
  (((txnErrorRecs recs).filterMap (·.transaction_id)).dedup.insertionSort
    (fun a b => txnCount recs b ≤ txnCount recs a)).take 10

/-- The error rows of one transaction
(`transaction_errors[transaction_errors['transaction_id'] == txn_id]`). -/
def txnRecords (recs : List ARecord) (id : String) : List ARecord :=
  (txnErrorRecs recs).filter fun r => r.transaction_id == some id

structure Cascade where
  transaction_id : String
  error_count : Nat
  span_min : Option Nat
  span_max : Option Nat
  categories : List String
deriving DecidableEq, Repr

/-- One cascading-failure entry.  The time span renders
`min(timestamps)`/`max(timestamps)` (pandas skips NaT, and an all-NaT group
gives NaT, modelled as `none`); `list(set(...))` of the category labels has
unspecified iteration order and is modelled as first-occurrence dedup. -/
def mkCascade (recs : List ARecord) (id : String) : Cascade :=
  let rs := txnRecords recs id
  { transaction_id := id,
    error_count := txnCount recs id,
    span_min := (rs.filterMap (·.timestamp)).min?,
    span_max := (rs.filterMap (·.timestamp)).max?,
    categories := (rs.flatMap (·.error_categories)).dedup }

/-- The body of the cascade loop: the reported entry of one candidate
transaction, if it has more than one error row. -/
def cascadeAt (recs : List ARecord) (id : String) : Option Cascade :=
  if 1 < txnCount recs id then some (mkCascade recs id) else none

/-- The cascade loop of `DataAnalyzer.analyze_error_patterns`: each of the top
ten transactions with strictly more than one error row yields one entry. -/
def cascading_failures (recs : List ARecord) : List Cascade :=
  (topTransactions recs).filterMap (cascadeAt recs)

/-! ### Peak periods (DataAnalyzer.identify_peak_periods) -/

structure PeakPeriod where
  time_period : String
  start_time : Nat
  error_count : Nat
  top_error_categories : List (String × Nat)
  affected_files : Nat
  unique_transactions : Nat
deriving DecidableEq, Repr

def countCat (cats : List String) (c : String) : Nat := cats.countP (· == c)

/-- Distinct elements keeping the first occurrence of each (the insertion
order of a `Counter`); the fuel argument, initialised to the list length,
only makes the recursion structural and is never exhausted because filtering
does not lengthen the list. -/
def firstDedupGo : Nat → List String → List String
  | 0, _ => []
  | _, [] => []
  | fuel + 1, a :: l => a :: firstDedupGo fuel (l.filter (· ≠ a))

def firstDedup (l : List String) : List String := firstDedupGo l.length l

/-- `Counter(...).most_common(3)`: pairs sorted by count descending, ties in
insertion order (a stable sort of the first-occurrence key list). -/
def mostCommon3 (cats : List String) : List (String × Nat) :=
  (((firstDedup cats).insertionSort fun a b =>
      countCat cats b ≤ countCat cats a).take 3).map
    fun c => (c, countCat cats c)

/-- The error rows of one 5-minute group (`w` in seconds). -/
def groupRows (w : Nat) (recs : List ARecord) (b : Nat) : List ARecord :=
  (errorRecsTs recs).filter fun r => r.timestamp.map (floorTo w) == some b

/-- One aggregated peak-period row: range label, count, top-3 categories,
distinct files, distinct non-null (and non-empty, by Python truthiness)
transaction ids. -/
def mkPeak (wMin : Nat) (recs : List ARecord) (b : Nat) : PeakPeriod :=
  let rows := groupRows (wMin * 60) recs b
  { time_period := fmtHM b ++ " - " ++ fmtHM (b + wMin * 60),
    start_time := b,
    error_count := rows.length,
    top_error_categories := mostCommon3 (rows.flatMap (·.error_categories)),
    affected_files := ((rows.map (·.file_path)).dedup).length,
    unique_transactions :=
      (((rows.filterMap (·.transaction_id)).dedup).filter (· ≠ "")).length }

/-- The ranking used by `nlargest(5, 'error_count')`: count descending with
ties kept in index (ascending bucket-start) order.  Because the grouped rows
are produced in ascending bucket order and `nlargest` keeps the first of
equal-count rows, this is the (count desc, start asc) lexicographic order. -/
def peakR (p q : PeakPeriod) : Prop :=
  q.error_count < p.error_count ∨
    (p.error_count = q.error_count ∧ p.start_time ≤ q.start_time)

instance peakRDec : DecidableRel peakR := fun p q => by
  unfold peakR
  exact inferInstance

/-- The aggregated rows in ascending bucket order, before ranking. -/
def peakList (recs : List ARecord) (wMin : Nat) : List PeakPeriod :=
  (sortedKeys (binsOf (wMin * 60) recs)).map (mkPeak wMin recs)

/-- `DataAnalyzer.identify_peak_periods` with window width `wMin` minutes
(default 5 at every call site). -/
def identify_peak_periods (recs : List ARecord) (wMin : Nat) : List PeakPeriod :=
  ((peakList recs wMin).insertionSort peakR).take 5

/-! ### analyze_error_patterns -/

inductive PatternEntry
  | cascade (c : Cascade)
  | burst (b : Burst)
deriving DecidableEq, Repr

/-- The fields of the analysis dict that the pattern claims concern; the
purely presentational aggregates of the source (error rate, per-level and
per-file histograms, peak hour) are not modelled. -/
structure ErrorAnalysis where
  total_errors : Nat
  total_log_entries : Nat
  patterns : List PatternEntry
  total_warnings : Nat
  total_errors_strict : Nat
deriving DecidableEq, Repr

/-- `DataAnalyzer.analyze_error_patterns`: the patterns list is the cascade
entries followed by the burst entries, as appended by the source (the empty
input degenerates to zero counts and an empty patterns list, as in the
source's early return). -/
def analyze_error_patterns (recs : List ARecord) : ErrorAnalysis :=
  { total_errors := (recs.filter (·.has_error)).length,
    total_log_entries := recs.length,
    patterns := (cascading_failures recs).map .cascade ++
                (error_bursts recs).map .burst,
    total_warnings := (recs.filter (·.is_warning)).length,
    total_errors_strict := (recs.filter (·.is_error_strict)).length }

/-- The error_burst entries of the analysis. -/
def burstEntries (recs : List ARecord) : List Burst :=
  (analyze_error_patterns recs).patterns.filterMap fun e =>
    match e with
    | .burst b => some b
    | .cascade _ => none

/-- The cascading_failure entries of the analysis. -/
def cascadeEntries (recs : List ARecord) : List Cascade :=
  (analyze_error_patterns recs).patterns.filterMap fun e =>
    match e with
    | .cascade c => some c
    | .burst _ => none

/-- The helper equality `parse_file` is compared against for positive caps:
the records of only the first `k` lines, with no cap. -/
def parse_file_firstK (warnAsErr : Bool) (y : Nat) (fs : FileSystem)
    (p : String) (k : Nat) : List LogRec :=
  match fs p with
  | some ls => parse_lines warnAsErr y p (ls.take k) 1 none
  | none => []

/-! ### Shared helper lemmas -/

theorem mem_sortedKeys_iff (l : List Nat) (a : Nat) : a ∈ sortedKeys l ↔ a ∈ l := by
  unfold sortedKeys
  rw [List.mem_insertionSort, List.mem_dedup]

theorem nodup_sortedKeys (l : List Nat) : (sortedKeys l).Nodup :=
  (List.perm_insertionSort _ _).nodup_iff.mpr (List.nodup_dedup l)

theorem mem_binsOf_of_pos {w : Nat} {recs : List ARecord} {m : Nat}
    (h : 0 < countInBin w recs m) : m ∈ binsOf w recs := by
  unfold countInBin at h
  rw [List.countP_pos_iff] at h
  obtain ⟨r, hr, hp⟩ := h
  exact List.mem_filterMap.mpr ⟨r, hr, by simpa using hp⟩

/-- Counting hits of a key projection in a `filterMap` over distinct keys:
at most the key `m` itself can contribute an entry projecting to `m`. -/
theorem countP_filterMap_keyed {α β : Type} [DecidableEq α]
    (proj : β → α) (f : α → Option β)
    (hf : ∀ k b, f k = some b → proj b = k) :
    ∀ (keys : List α), keys.Nodup → ∀ (m : α),
      ((keys.filterMap f).countP fun b => decide (proj b = m)) =
        if m ∈ keys ∧ (f m).isSome then 1 else 0 := by
  intro keys
  induction keys with
  | nil => intro _ m; simp
  | cons k ks ih =>
    intro hnd m
    rcases List.nodup_cons.mp hnd with ⟨hk, hnd'⟩
    rw [List.filterMap_cons]
    cases hfk : f k with
    | none =>
      rw [ih hnd' m]
      by_cases hm : m = k
      · subst hm
        simp [hfk, hk]
      · simp [hm]
    | some b =>
      have hb := hf k b hfk
      rw [List.countP_cons, ih hnd' m]
      by_cases hm : m = k
      · subst hm
        simp [hb, hk, hfk]
      · have hpb : ¬ (proj b = m) := by rw [hb]; exact fun e => hm e.symm
        simp [hpb, hm]

/-! ### Claim C1 -/

/-- Spec Scenario B's input line. -/
def scenarioB : String := "[01/Oct/2023:14:35:22 +0000] WARN Cannot connect to database"

/-- C1.  The record `parse_line` actually produces for Scenario B.  Level,
category, `isWarning` and `isErrorStrict` agree with the claim, but the
timestamp is 2023-10-01T14:35:02, not 14:35:22: `strptime` receives
`timestamp_str[:19]`, and the 20-character Apache match
`01/Oct/2023:14:35:22` loses the final digit of its seconds, which `%S` then
parses as the single digit 2.  The 19-character slice is designed for the ISO
formats; applying it to the Apache format contradicts the documented intent of
that matcher (and spec Scenario B), so the claim is right and the code has a
truncation bug. -/
theorem c1_scenarioB_eval :
    parse_line false 2023 scenarioB.toList "test.log" 2 = some
      { timestamp := some ⟨2023, 10, 1, 14, 35, 2⟩,
        log_level := some "WARN",
        message := "Cannot connect to database",
        original_line := "[01/Oct/2023:14:35:22 +0000] WARN Cannot connect to database",
        error_categories := ["database_errors"],
        transaction_id := none,
        file_path := "test.log",
        line_number := 2,
        is_warning := true,
        is_error_strict := true,
        has_error := true } := by
  decide

/-! ### Claim C2 -/

/-- C2.  Every record `parse_line` produces carries the classifier's label
list (a total list value, never an absent field), and its `has_error` flag
implies `is_error_strict`, or `is_warning` together with the
warnings-as-errors configuration. -/
theorem c2_has_error_invariant :
    ∀ (cfg : Bool) (y : Nat) (line : List Char) (fp : String) (ln : Nat)
      (r : LogRec), parse_line cfg y line fp ln = some r →
      r.error_categories = classify_error (stripChars line) ∧
      (r.has_error = true →
        r.is_error_strict = true ∨ (r.is_warning = true ∧ cfg = true)) := by
  intro cfg y line fp ln r h
  unfold parse_line at h
  by_cases he : (stripChars line).isEmpty = true
  · rw [if_pos he] at h
    exact absurd h (by simp)
  · rw [if_neg he] at h
    injection h with h
    subst h
    refine ⟨rfl, ?_⟩
    intro hhe
    simp only at hhe ⊢
    rcases Bool.or_eq_true _ _ |>.mp hhe with hs | hw
    · exact Or.inl hs
    · exact Or.inr (Bool.and_eq_true _ _ |>.mp hw)

/-- C2 witness: a warning-only line under warnings-as-errors. -/
def c2rec : LogRec :=
  { timestamp := none,
    log_level := some "WARNING",
    message := "PHP : boom",
    original_line := "PHP Warning: boom",
    error_categories := [],
    transaction_id := none,
    file_path := "f",
    line_number := 1,
    is_warning := true,
    is_error_strict := false,
    has_error := true }

theorem c2_witness :
    c2rec.is_error_strict = true ∨ (c2rec.is_warning = true ∧ (true : Bool) = true) :=
  (c2_has_error_invariant true 2023 ("PHP Warning: boom".toList) "f" 1 c2rec
    (by decide)).2 (by decide)

/-! ### Claim C6 -/

theorem inWindow_iff (a : DataAnalyzer) (r : ARecord) :
    inWindow a r = true ↔
      ∃ t, r.timestamp = some t ∧ a.start_time ≤ t ∧ t ≤ a.end_time := by
  unfold inWindow
  cases h : r.timestamp with
  | none => simp
  | some t => simp

/-- C6.  The window filter keeps exactly the records whose timestamp is
present and inside `[start_time, end_time]` (both ends inclusive); records
with no usable timestamp are dropped, and re-filtering the output is the
identity. -/
theorem c6_window_filter :
    ∀ (a : DataAnalyzer) (recs : List ARecord),
      (∀ r : ARecord, r ∈ filter_by_timeframe a recs ↔
        r ∈ recs ∧ ∃ t, r.timestamp = some t ∧
          a.start_time ≤ t ∧ t ≤ a.end_time) ∧
      filter_by_timeframe a (filter_by_timeframe a recs) =
        filter_by_timeframe a recs := by
  intro a recs
  constructor
  · intro r
    unfold filter_by_timeframe
    rw [List.mem_filter, inWindow_iff]
  · unfold filter_by_timeframe
    rw [List.filter_filter]
    congr 1
    funext r
    rw [Bool.and_self]

def c6an : DataAnalyzer := ⟨100, 200⟩

def c6rec : ARecord :=
  { timestamp := some 150, log_level := none, has_error := false,
    is_warning := false, is_error_strict := false, error_categories := [],
    file_path := "f", transaction_id := none }

def c6recLate : ARecord :=
  { timestamp := some 300, log_level := none, has_error := false,
    is_warning := false, is_error_strict := false, error_categories := [],
    file_path := "f", transaction_id := none }

theorem c6_witness :
    c6rec ∈ filter_by_timeframe c6an [c6rec, c6recLate] :=
  ((c6_window_filter c6an [c6rec, c6recLate]).1 c6rec).mpr
    ⟨by decide, 150, by decide, by decide, by decide⟩

/-! ### Claim C3 -/

theorem flatten_contains_part {α β : Type} (f : α → List β) :
    ∀ (l : List α) (a : α), a ∈ l →
      ∃ pre post, (l.map f).flatten = pre ++ f a ++ post := by
  intro l
  induction l with
  | nil => intro a ha; cases ha
  | cons b bs ih =>
    intro a ha
    rcases List.mem_cons.mp ha with h | h
    · subst h
      exact ⟨[], (bs.map f).flatten, by simp⟩
    · obtain ⟨pre, post, hp⟩ := ih a h
      exact ⟨f b ++ pre, post, by simp [hp]⟩

/-- C3.  A file whose open/read fails contributes the empty record list, and
in the parallel dispatch every submitted file's records appear in the merged
result regardless of any other file's failure — the dispatcher is a total
function, so no exception reaches the caller. -/
theorem c3_per_file_isolation :
    ∀ (cfg : Bool) (y : Nat) (fs : FileSystem) (cap : Option Nat)
      (paths : List String) (w : Nat) (p : String), p ∈ paths →
      (fs p = none → parse_file cfg y fs p cap = []) ∧
      ∃ pre post, parse_files_parallel cfg y fs paths w cap =
        pre ++ parse_file cfg y fs p cap ++ post := by
  intro cfg y fs cap paths w p hp
  constructor
  · intro h
    unfold parse_file
    rw [h]
  · exact flatten_contains_part (fun q => parse_file cfg y fs q cap) paths p hp

/-- A file system with one good file and one missing file. -/
def fsDemo : FileSystem := fun p =>
  if p = "good.log" then some ["deadlock detected", "all fine"] else none

theorem c3_witness :
    (parse_file false 2023 fsDemo "missing.log" none = []) ∧
    ∃ pre post, parse_files_parallel false 2023 fsDemo
      ["missing.log", "good.log"] 4 none =
      pre ++ parse_file false 2023 fsDemo "missing.log" none ++ post := by
  have h := c3_per_file_isolation false 2023 fsDemo none
    ["missing.log", "good.log"] 4 "missing.log" (by decide)
  exact ⟨h.1 (by decide), h.2⟩

/-! ### Claim C8 (corrected) -/

/-- A line with text before the timestamp: `detect_timestamp` discards it. -/
def c8line : String := "ERROR 2023-10-01 14:30:45 x"

/-- C8 counterexample.  The residual line is just the stripped suffix after
the match: the token `ERROR`, which precedes the timestamp in the input, is
absent from the residual (it contains no letter `E` at all), so the text of
the line other than the timestamp token is not preserved. -/
theorem c8_counterexample :
    (detect_timestamp 2025 c8line.toList).1 = some ⟨2023, 10, 1, 14, 30, 45⟩ ∧
    (detect_timestamp 2025 c8line.toList).2 = "x".toList ∧
    'E' ∈ c8line.toList ∧ 'E' ∉ (detect_timestamp 2025 c8line.toList).2 := by
  decide

theorem detectAux_residual (y : Nat) :
    ∀ (ms : List ((List Char → Option (List Char × Nat)) × Fmt))
      (line : List Char),
      ((detectAux y ms line).1 = none → (detectAux y ms line).2 = line) ∧
      ∀ dt, (detectAux y ms line).1 = some dt →
        ∃ mf ∈ ms, ∃ g e, mf.1 line = some (g, e) ∧
          applyFmt y mf.2 (normalizeTs g) = some dt ∧
          (detectAux y ms line).2 = stripChars (line.drop e) := by
  intro ms
  induction ms with
  | nil =>
    intro line
    exact ⟨fun _ => rfl, fun dt h => by simp [detectAux] at h⟩
  | cons m rest ih =>
    intro line
    obtain ⟨srch, fmt⟩ := m
    cases hs : srch line with
    | none =>
      simp only [detectAux, hs]
      refine ⟨(ih line).1, fun dt h => ?_⟩
      obtain ⟨mf, hmf, g, e, h1, h2, h3⟩ := (ih line).2 dt h
      exact ⟨mf, List.mem_cons_of_mem _ hmf, g, e, h1, h2, h3⟩
    | some ge =>
      obtain ⟨g, e⟩ := ge
      cases hp : applyFmt y fmt (normalizeTs g) with
      | none =>
        simp only [detectAux, hs, hp]
        refine ⟨(ih line).1, fun dt h => ?_⟩
        obtain ⟨mf, hmf, g', e', h1, h2, h3⟩ := (ih line).2 dt h
        exact ⟨mf, List.mem_cons_of_mem _ hmf, g', e', h1, h2, h3⟩
      | some dt0 =>
        simp only [detectAux, hs, hp]
        refine ⟨fun h => by simp at h, fun dt h => ?_⟩
        refine ⟨(srch, fmt), List.mem_cons_self _ _, g, e, hs, ?_, rfl⟩
        injection h with h
        rw [hp, h]

/-- C8 amended.  When some matcher succeeds, `detect_timestamp` returns the
parsed time together with the stripped suffix of the line after the matched
region — the residual is `stripChars` of the line with exactly the match end
`e` reported by the successful matcher dropped, so text before the match is
discarded, not preserved; when every matcher fails it returns no timestamp
and the input unchanged. -/
theorem c8_amended_residual :
    ∀ (y : Nat) (line : List Char),
      ((detect_timestamp y line).1 = none → (detect_timestamp y line).2 = line) ∧
      ∀ dt, (detect_timestamp y line).1 = some dt →
        ∃ mf ∈ tsMatchers, ∃ g e, mf.1 line = some (g, e) ∧
          applyFmt y mf.2 (normalizeTs g) = some dt ∧
          (detect_timestamp y line).2 = stripChars (line.drop e) :=
  fun y line => detectAux_residual y tsMatchers line

theorem c8_witness :
    (detect_timestamp 0 "no stamp".toList).2 = "no stamp".toList ∧
    ∃ mf ∈ tsMatchers, ∃ g e, mf.1 c8line.toList = some (g, e) ∧
      applyFmt 2025 mf.2 (normalizeTs g) = some ⟨2023, 10, 1, 14, 30, 45⟩ ∧
      (detect_timestamp 2025 c8line.toList).2 =
        stripChars (c8line.toList.drop e) :=
  ⟨(c8_amended_residual 0 "no stamp".toList).1 (by decide),
   (c8_amended_residual 2025 c8line.toList).2 ⟨2023, 10, 1, 14, 30, 45⟩
     (by decide)⟩

/-! ### Claims C9 (corrected) and C10 -/

/-- A file with two parseable lines, for the cap boundary cases. -/
def fsTwo : FileSystem := fun p =>
  if p = "app.log" then some ["alpha line", "beta line"] else none

/-- C9 counterexample.  Raising the cap from 0 to 1 *decreases* the record
count (2 records under cap 0, which Python truthiness treats as "no cap",
against 1 record under cap 1), so the record count is not monotone over all
caps m ≤ n. -/
theorem c9_counterexample :
    (0 : Nat) ≤ 1 ∧
    (parse_file false 2023 fsTwo "app.log" (some 1)).length <
      (parse_file false 2023 fsTwo "app.log" (some 0)).length := by
  constructor
  · decide
  · decide


theorem capStop_some_eq (c k : Nat) (hc : 1 ≤ c) :
    capStop (some c) k = decide (c < k) := by
  simp only [capStop]
  have h0 : (c == 0) = false := by
    simp only [beq_eq_false_iff_ne, ne_eq]
    omega
  rw [h0]
  simp

theorem capStop_zero (k : Nat) : capStop (some 0) k = false := by
  simp [capStop]

theorem capStop_none (k : Nat) : capStop none k = false := rfl

theorem parse_lines_mono_cap (cfg : Bool) (y : Nat) (fp : String) :
    ∀ (ls : List String) (k m n : Nat), 1 ≤ m → m ≤ n →
      (parse_lines cfg y fp ls k (some m)).length ≤
        (parse_lines cfg y fp ls k (some n)).length := by
  intro ls
  induction ls with
  | nil =>
    intro k m n _ _
    simp [parse_lines]
  | cons l ls ih =>
    intro k m n hm hmn
    simp only [parse_lines, capStop_some_eq m k hm,
      capStop_some_eq n k (le_trans hm hmn)]
    by_cases h : m < k
    · rw [if_pos (by simpa using h)]
      simp
    · have e2 : ¬ n < k := by omega
      rw [if_neg (by simpa using h), if_neg (by simpa using e2)]
      cases hpl : parse_line cfg y l.toList fp k with
      | some r =>
        simpa using Nat.succ_le_succ (ih (k + 1) m n hm hmn)
      | none => exact ih (k + 1) m n hm hmn

theorem parse_lines_le_none (cfg : Bool) (y : Nat) (fp : String) :
    ∀ (ls : List String) (k c : Nat),
      (parse_lines cfg y fp ls k (some c)).length ≤
        (parse_lines cfg y fp ls k none).length := by
  intro ls
  induction ls with
  | nil =>
    intro k c
    simp [parse_lines]
  | cons l ls ih =>
    intro k c
    simp only [parse_lines]
    by_cases h : capStop (some c) k = true
    · rw [if_pos h]
      simp
    · rw [if_neg h, if_neg (by simp [capStop_none])]
      cases hpl : parse_line cfg y l.toList fp k with
      | some r => simpa using Nat.succ_le_succ (ih (k + 1) c)
      | none => exact ih (k + 1) c

/-- C9 amended.  For positive caps m ≤ n the record count is monotone, and
any positive cap produces at most the uncapped count; monotonicity fails only
at the cap 0, which Python truthiness makes behave like the unset cap. -/
theorem c9_amended_monotone :
    ∀ (cfg : Bool) (y : Nat) (fs : FileSystem) (p : String) (m n : Nat),
      1 ≤ m → m ≤ n →
      (parse_file cfg y fs p (some m)).length ≤
        (parse_file cfg y fs p (some n)).length ∧
      (parse_file cfg y fs p (some m)).length ≤
        (parse_file cfg y fs p none).length := by
  intro cfg y fs p m n hm hmn
  unfold parse_file
  cases fs p with
  | none => simp
  | some ls =>
    exact ⟨parse_lines_mono_cap cfg y p ls 1 m n hm hmn,
           parse_lines_le_none cfg y p ls 1 m⟩

theorem c9_witness :
    (1 : Nat) ≤ 1 ∧ (1 : Nat) ≤ 2 ∧
    (parse_file false 2023 fsTwo "app.log" (some 1)).length ≤
      (parse_file false 2023 fsTwo "app.log" (some 2)).length :=
  ⟨by decide, by decide,
   (c9_amended_monotone false 2023 fsTwo "app.log" 1 2 (by decide) (by decide)).1⟩

theorem parse_lines_cap_zero (cfg : Bool) (y : Nat) (fp : String) :
    ∀ (ls : List String) (k : Nat),
      parse_lines cfg y fp ls k (some 0) = parse_lines cfg y fp ls k none := by
  intro ls
  induction ls with
  | nil => intro k; rfl
  | cons l ls ih =>
    intro k
    simp only [parse_lines, capStop_zero, capStop_none]
    cases hpl : parse_line cfg y l.toList fp k with
    | some r => rw [ih (k + 1)]
    | none => exact ih (k + 1)

theorem parse_lines_cap_take (cfg : Bool) (y : Nat) (fp : String) :
    ∀ (ls : List String) (n k : Nat), 1 ≤ k →
      parse_lines cfg y fp ls n (some k) =
        parse_lines cfg y fp (ls.take (k + 1 - n)) n none := by
  intro ls
  induction ls with
  | nil =>
    intro n k _
    rw [List.take_nil]
    rfl
  | cons l ls ih =>
    intro n k hk
    by_cases h : k < n
    · have h0 : k + 1 - n = 0 := by omega
      rw [h0, List.take_zero]
      simp only [parse_lines, capStop_some_eq k n hk]
      rw [if_pos (by simpa using h)]
    · have h1 : k + 1 - n = (k - n) + 1 := by omega
      rw [h1, List.take_succ_cons]
      simp only [parse_lines, capStop_some_eq k n hk, capStop_none]
      rw [if_neg (by simpa using h), if_neg (by simp)]
      have h2 : k - n = k + 1 - (n + 1) := by omega
      cases hpl : parse_line cfg y l.toList fp n with
      | some r => rw [ih (n + 1) k hk, h2]
      | none => rw [ih (n + 1) k hk, h2]

/-- C10.  A cap of 0 parses the whole file exactly as the unset cap does, and
a positive cap k produces exactly the records of the file's first k lines. -/
theorem c10_zero_cap_unlimited :
    ∀ (cfg : Bool) (y : Nat) (fs : FileSystem) (p : String),
      parse_file cfg y fs p (some 0) = parse_file cfg y fs p none ∧
      ∀ k, 1 ≤ k →
        parse_file cfg y fs p (some k) = parse_file_firstK cfg y fs p k := by
  intro cfg y fs p
  unfold parse_file parse_file_firstK
  cases fs p with
  | none => exact ⟨rfl, fun _ _ => rfl⟩
  | some ls =>
    exact ⟨parse_lines_cap_zero cfg y p ls 1,
           fun k hk => parse_lines_cap_take cfg y p ls 1 k hk⟩

theorem c10_witness :
    parse_file false 2023 fsTwo "app.log" (some 0) =
      parse_file false 2023 fsTwo "app.log" none ∧
    parse_file false 2023 fsTwo "app.log" (some 1) =
      parse_file_firstK false 2023 fsTwo "app.log" 1 :=
  ⟨(c10_zero_cap_unlimited false 2023 fsTwo "app.log").1,
   (c10_zero_cap_unlimited false 2023 fsTwo "app.log").2 1 (by decide)⟩

/-! ### Claim C4 -/

theorem filterMap_const_none {α β : Type} :
    ∀ l : List α, l.filterMap (fun _ => (none : Option β)) = [] := by
  intro l
  induction l with
  | nil => rfl
  | cons a l ih => simp [List.filterMap_cons, ih]

theorem burstEntries_eq (recs : List ARecord) :
    burstEntries recs = error_bursts recs := by
  unfold burstEntries analyze_error_patterns
  rw [List.filterMap_append, List.filterMap_map, List.filterMap_map]
  show (cascading_failures recs).filterMap (fun _ => none) ++
       (error_bursts recs).filterMap some = error_bursts recs
  rw [filterMap_const_none, List.filterMap_some, List.nil_append]

theorem cascadeEntries_eq (recs : List ARecord) :
    cascadeEntries recs = cascading_failures recs := by
  unfold cascadeEntries analyze_error_patterns
  rw [List.filterMap_append, List.filterMap_map, List.filterMap_map]
  show (cascading_failures recs).filterMap some ++
       (error_bursts recs).filterMap (fun _ => none) = cascading_failures recs
  rw [filterMap_const_none, List.filterMap_some, List.append_nil]

theorem burstAt_time (recs : List ARecord) (k : Nat) (b : Burst)
    (h : burstAt recs k = some b) : b.time = k := by
  simp only [burstAt] at h
  split at h
  · injection h with h
    rw [← h]
  · exact absurd h (by simp)

/-- C4.  A 1-minute bucket appears among the error_burst entries of
`analyze_error_patterns` exactly once when its error count strictly exceeds 5
and not at all otherwise, and every reported entry carries that bucket's
start, its error count, and the count-and-start description string. -/
theorem c4_burst_threshold :
    ∀ (recs : List ARecord) (m : Nat),
      (((burstEntries recs).countP fun b => decide (b.time = m)) =
        if 5 < countInBin 60 recs m then 1 else 0) ∧
      ∀ b ∈ burstEntries recs,
        b.error_count = countInBin 60 recs b.time ∧
        5 < b.error_count ∧
        b.description = Nat.repr b.error_count ++
          " errors in 1 minute starting at " ++ fmtHMS b.time := by
  intro recs m
  rw [burstEntries_eq]
  constructor
  · unfold error_bursts
    rw [countP_filterMap_keyed Burst.time (burstAt recs) (burstAt_time recs) _
      (nodup_sortedKeys _) m]
    have hiff : (m ∈ sortedKeys (binsOf 60 recs) ∧ (burstAt recs m).isSome) ↔
        5 < countInBin 60 recs m := by
      constructor
      · rintro ⟨-, hs⟩
        by_cases h5 : 5 < countInBin 60 recs m
        · exact h5
        · simp [burstAt, h5] at hs
      · intro h5
        refine ⟨(mem_sortedKeys_iff _ _).mpr (mem_binsOf_of_pos (by omega)), ?_⟩
        simp [burstAt, h5]
    rw [if_congr hiff rfl rfl]
  · intro b hb
    obtain ⟨k, hk, hbk⟩ := List.mem_filterMap.mp hb
    have ht := burstAt_time recs k b hbk
    simp only [burstAt] at hbk
    by_cases h5 : 5 < countInBin 60 recs k
    · rw [if_pos h5] at hbk
      injection hbk with hbk
      subst hbk
      exact ⟨rfl, h5, rfl⟩
    · rw [if_neg h5] at hbk
      exact absurd hbk (by simp)

def aRec (t : Option Nat) (he : Bool) (cats : List String) (fp : String)
    (tid : Option String) : ARecord :=
  { timestamp := t, log_level := none, has_error := he, is_warning := false,
    is_error_strict := he, error_categories := cats, file_path := fp,
    transaction_id := tid }

/-- Six errors inside minute 0, five inside minute 1. -/
def sampleBurst : List ARecord :=
  [aRec (some 0) true [] "a" none, aRec (some 10) true [] "a" none,
   aRec (some 20) true [] "a" none, aRec (some 30) true [] "a" none,
   aRec (some 40) true [] "a" none, aRec (some 50) true [] "a" none,
   aRec (some 60) true [] "a" none, aRec (some 70) true [] "a" none,
   aRec (some 80) true [] "a" none, aRec (some 90) true [] "a" none,
   aRec (some 100) true [] "a" none]

theorem c4_witness :
    ((burstEntries sampleBurst).countP fun b => decide (b.time = 0)) = 1 ∧
    ((burstEntries sampleBurst).countP fun b => decide (b.time = 60)) = 0 := by
  constructor
  · rw [(c4_burst_threshold sampleBurst 0).1]
    decide
  · rw [(c4_burst_threshold sampleBurst 60).1]
    decide

/-! ### Claim C5 -/

theorem nodup_topTransactions (recs : List ARecord) :
    (topTransactions recs).Nodup := by
  unfold topTransactions
  exact List.Nodup.sublist (List.take_sublist _ _)
    ((List.perm_insertionSort _ _).nodup_iff.mpr (List.nodup_dedup _))

theorem cascadeAt_id (recs : List ARecord) (k : String) (c : Cascade)
    (h : cascadeAt recs k = some c) : c.transaction_id = k := by
  simp only [cascadeAt] at h
  split at h
  · injection h with h
    rw [← h]
    rfl
  · exact absurd h (by simp)

/-- C5.  Each of the top-10 transactions contributes exactly one
cascading_failure entry when it has strictly more than one error record and
none when it has exactly one, and every entry reports the transaction's id,
its error count, the min/max timestamp span of its records, and exactly the
union of the distinct category labels across its records. -/
theorem c5_cascade_rule :
    ∀ (recs : List ARecord),
      (∀ id ∈ topTransactions recs,
        ((cascadeEntries recs).countP fun c => decide (c.transaction_id = id)) =
          if 1 < txnCount recs id then 1 else 0) ∧
      ∀ c ∈ cascadeEntries recs,
        1 < txnCount recs c.transaction_id ∧
        c.error_count = txnCount recs c.transaction_id ∧
        c.span_min =
          ((txnRecords recs c.transaction_id).filterMap (·.timestamp)).min? ∧
        c.span_max =
          ((txnRecords recs c.transaction_id).filterMap (·.timestamp)).max? ∧
        ∀ cat, cat ∈ c.categories ↔
          ∃ r ∈ txnRecords recs c.transaction_id, cat ∈ r.error_categories := by
  intro recs
  rw [cascadeEntries_eq]
  constructor
  · intro id hid
    unfold cascading_failures
    rw [countP_filterMap_keyed Cascade.transaction_id (cascadeAt recs)
      (cascadeAt_id recs) _ (nodup_topTransactions recs) id]
    have hiff : (id ∈ topTransactions recs ∧ (cascadeAt recs id).isSome) ↔
        1 < txnCount recs id := by
      constructor
      · rintro ⟨-, hs⟩
        by_cases h1 : 1 < txnCount recs id
        · exact h1
        · simp [cascadeAt, h1] at hs
      · intro h1
        exact ⟨hid, by simp [cascadeAt, h1]⟩
    rw [if_congr hiff rfl rfl]
  · intro c hc
    unfold cascading_failures at hc
    obtain ⟨k, hk, hck⟩ := List.mem_filterMap.mp hc
    simp only [cascadeAt] at hck
    by_cases h1 : 1 < txnCount recs k
    · rw [if_pos h1] at hck
      injection hck with hck
      subst hck
      refine ⟨h1, rfl, rfl, rfl, ?_⟩
      intro cat
      show cat ∈ ((txnRecords recs k).flatMap (·.error_categories)).dedup ↔ _
      rw [List.mem_dedup, List.mem_flatMap]
      constructor
      · rintro ⟨r, hr, hcat⟩
        exact ⟨r, hr, hcat⟩
      · rintro ⟨r, hr, hcat⟩
        exact ⟨r, hr, hcat⟩
    · rw [if_neg h1] at hck
      exact absurd hck (by simp)

/-- Transaction TXN1 has two error records, TXN2 exactly one. -/
def sampleCascade : List ARecord :=
  [aRec (some 100) true ["database_errors"] "a" (some "TXN1"),
   aRec (some 700) true ["timeout_errors"] "a" (some "TXN1"),
   aRec (some 400) true [] "a" (some "TXN2")]

theorem c5_witness :
    "TXN1" ∈ topTransactions sampleCascade ∧
    ((cascadeEntries sampleCascade).countP
      fun c => decide (c.transaction_id = "TXN1")) = 1 ∧
    "TXN2" ∈ topTransactions sampleCascade ∧
    ((cascadeEntries sampleCascade).countP
      fun c => decide (c.transaction_id = "TXN2")) = 0 := by
  refine ⟨by decide, ?_, by decide, ?_⟩
  · rw [(c5_cascade_rule sampleCascade).1 "TXN1" (by decide)]
    decide
  · rw [(c5_cascade_rule sampleCascade).1 "TXN2" (by decide)]
    decide

/-! ### Claim C7 -/

theorem peakList_map_start (recs : List ARecord) :
    (peakList recs 5).map (·.start_time) = sortedKeys (binsOf 300 recs) := by
  unfold peakList
  rw [List.map_map]
  have h : ((fun p : PeakPeriod => p.start_time) ∘ mkPeak 5 recs) = id :=
    funext fun b => rfl
  rw [h, List.map_id]

theorem sorted_peak_sort (recs : List ARecord) :
    ((peakList recs 5).insertionSort peakR).Pairwise peakR := by
  haveI : IsTotal PeakPeriod peakR :=
    ⟨fun a b => by unfold peakR; omega⟩
  haveI : IsTrans PeakPeriod peakR :=
    ⟨fun a b c h1 h2 => by unfold peakR at h1 h2 ⊢; omega⟩
  exact List.sorted_insertionSort peakR _

/-- C7.  `identify_peak_periods` returns at most five entries — exactly
`min 5 (number of occupied 5-minute buckets)`; each entry is a bucket of
error records and carries that bucket's range label, error count, top-3
categories by frequency, distinct-file count, and distinct non-null
transaction-id count; distinct entries have distinct buckets; the list is
ranked by error count descending with ties broken toward the earlier bucket
start; and every occupied bucket that was not returned loses to every
returned entry under that ranking. -/
theorem c7_peak_periods :
    ∀ (recs : List ARecord),
      (identify_peak_periods recs 5).length =
        min 5 (sortedKeys (binsOf 300 recs)).length ∧
      (∀ p ∈ identify_peak_periods recs 5,
        p.start_time ∈ binsOf 300 recs ∧
        p.error_count = (groupRows 300 recs p.start_time).length ∧
        p.top_error_categories = mostCommon3
          ((groupRows 300 recs p.start_time).flatMap (·.error_categories)) ∧
        p.affected_files =
          ((groupRows 300 recs p.start_time).map (·.file_path)).dedup.length ∧
        p.unique_transactions =
          (((groupRows 300 recs p.start_time).filterMap
            (·.transaction_id)).dedup.filter (· ≠ "")).length ∧
        p.time_period = fmtHM p.start_time ++ " - " ++
          fmtHM (p.start_time + 300)) ∧
      ((identify_peak_periods recs 5).map (·.start_time)).Nodup ∧
      (identify_peak_periods recs 5).Pairwise (fun p q =>
        q.error_count < p.error_count ∨
          (p.error_count = q.error_count ∧ p.start_time < q.start_time)) ∧
      ∀ b ∈ binsOf 300 recs,
        b ∉ (identify_peak_periods recs 5).map (·.start_time) →
        ∀ p ∈ identify_peak_periods recs 5,
          (groupRows 300 recs b).length < p.error_count ∨
            ((groupRows 300 recs b).length = p.error_count ∧
              p.start_time < b) := by
  intro recs
  have hperm : List.Perm ((peakList recs 5).insertionSort peakR)
      (peakList recs 5) := List.perm_insertionSort _ _
  have hsorted := sorted_peak_sort recs
  have hndfull :
      (((peakList recs 5).insertionSort peakR).map (·.start_time)).Nodup := by
    rw [(hperm.map _).nodup_iff, peakList_map_start]
    exact nodup_sortedKeys _
  have hmem_fields : ∀ p ∈ identify_peak_periods recs 5,
      ∃ b ∈ sortedKeys (binsOf 300 recs), p = mkPeak 5 recs b := by
    intro p hp
    have hp1 : p ∈ (peakList recs 5).insertionSort peakR :=
      List.mem_of_mem_take hp
    have hp2 : p ∈ peakList recs 5 := hperm.mem_iff.mp hp1
    unfold peakList at hp2
    obtain ⟨b, hb, hpb⟩ := List.mem_map.mp hp2
    exact ⟨b, hb, hpb.symm⟩
  have hndtake : ((identify_peak_periods recs 5).map (·.start_time)).Nodup := by
    refine List.Nodup.sublist (List.Sublist.map _ ?_) hndfull
    exact List.take_sublist _ _
  refine ⟨?_, ?_, hndtake, ?_, ?_⟩
  · show (((peakList recs 5).insertionSort peakR).take 5).length = _
    rw [List.length_take, hperm.length_eq]
    unfold peakList
    rw [List.length_map]
  · intro p hp
    obtain ⟨b, hb, rfl⟩ := hmem_fields p hp
    refine ⟨?_, rfl, rfl, rfl, rfl, rfl⟩
    exact (mem_sortedKeys_iff _ _).mp hb
  · have hpwtake : (identify_peak_periods recs 5).Pairwise peakR :=
      List.Pairwise.sublist (List.take_sublist _ _) hsorted
    have hpwne : (identify_peak_periods recs 5).Pairwise
        (fun p q : PeakPeriod => p.start_time ≠ q.start_time) :=
      List.pairwise_map.mp hndtake
    refine (hpwtake.and hpwne).imp ?_
    intro a b hab
    obtain ⟨hr, hne⟩ := hab
    unfold peakR at hr
    omega
  · intro b hbin hbnot p hp
    have hbkeys : b ∈ sortedKeys (binsOf 300 recs) :=
      (mem_sortedKeys_iff _ _).mpr hbin
    have hmkb : mkPeak 5 recs b ∈ (peakList recs 5).insertionSort peakR := by
      rw [hperm.mem_iff]
      unfold peakList
      exact List.mem_map_of_mem (mkPeak 5 recs) hbkeys
    have hsplit := List.take_append_drop 5 ((peakList recs 5).insertionSort peakR)
    have hdropmem : mkPeak 5 recs b ∈
        ((peakList recs 5).insertionSort peakR).drop 5 := by
      rcases List.mem_append.mp (by rw [hsplit]; exact hmkb) with h | h
      · exfalso
        apply hbnot
        have : (mkPeak 5 recs b).start_time = b := rfl
        rw [← this]
        exact List.mem_map_of_mem _ h
      · exact h
    have hpw := hsorted
    rw [← hsplit] at hpw
    have hrel : peakR p (mkPeak 5 recs b) :=
      (List.pairwise_append.mp hpw).2.2 p hp _ hdropmem
    have hne : p.start_time ≠ b := by
      intro he
      apply hbnot
      rw [← he]
      exact List.mem_map_of_mem _ hp
    have e1 : (mkPeak 5 recs b).error_count = (groupRows 300 recs b).length := rfl
    have e2 : (mkPeak 5 recs b).start_time = b := rfl
    unfold peakR at hrel
    rw [e1, e2] at hrel
    omega

/-- Six occupied 5-minute buckets, one error each. -/
def samplePeaks : List ARecord :=
  [aRec (some 0) true ["database_errors"] "a" none,
   aRec (some 300) true [] "a" none,
   aRec (some 600) true [] "a" none,
   aRec (some 900) true [] "b" none,
   aRec (some 1200) true [] "b" none,
   aRec (some 1500) true [] "b" none]

theorem c7_witness :
    (identify_peak_periods samplePeaks 5).length = 5 ∧
    ((groupRows 300 samplePeaks 1500).length <
        (mkPeak 5 samplePeaks 0).error_count ∨
      ((groupRows 300 samplePeaks 1500).length =
          (mkPeak 5 samplePeaks 0).error_count ∧
        (mkPeak 5 samplePeaks 0).start_time < 1500)) := by
  constructor
  · rw [(c7_peak_periods samplePeaks).1]
    decide
  · exact (c7_peak_periods samplePeaks).2.2.2.2 1500 (by decide) (by decide)
      (mkPeak 5 samplePeaks 0) (by decide)
